import Mathlib

/-!
Verification of the multi-site scraping orchestration core of the
RYDS Car Hunter repository against its natural-language specification.

The definitions below are a shallow embedding of the TypeScript source:

* `Backend.batchChunks` / `Backend.runInBatches` embed the batch scheduler
  `runInBatches` of `src/backend/index.ts` (lines 183-214).  A task is
  represented by the value its promise resolves with; `Promise.all`
  preserves the order of its inputs, so the result list of one batch is
  the chunk itself.
* `Backend.processSite` embeds the per-site job runner `processSite` of
  `src/backend/index.ts` (lines 323-496), as a function from the site
  configuration, the credential table entry for the site, and the
  outcomes of the suspended driver calls (login / navigation / filter /
  extraction, each of which may reject) to the returned per-site value
  (`some records` or `none`, the embedding of the JS `null`) together
  with the list of observable events in the order the code performs
  them.
* `Backend.scrapeResults` / `Backend.scrapeAllSites` embed the group
  split, the per-group batch runs and the final aggregation of
  `scrapeAllSites` (lines 217-583).
* `Backend.BatchStep` / `Backend.GStep` are small-step transition systems
  for the concurrent execution of the batch scheduler and of the two
  resource groups with their `stagehand.close()` calls; temporal claims
  are proved as invariants of all reachable states / all labelled paths.
* `Carto` and `Disposal` embed the filter/extraction logic of the two
  site drivers present in the repository sources (`cartotradeConfig` and
  `disposalnetworkConfig`), in particular the `_cartotradeSearchExecuted`
  / `_disposalnetworkMakeApplied` / `_disposalnetworkModelApplied` /
  `_disposalnetworkNoResults` page flags and the pagination loops.
* `Frontend.convertApiVehicleToVehicle` embeds the result normalizer of
  `src/frontend/src/services/api/vehicleApi.ts` (lines 151-191),
  including the JavaScript truthiness semantics of `||` and the
  string-concatenation semantics of `+` on possibly-undefined fields.
-/

namespace Backend

/-- Job status in the scheduler's lifecycle (`Pending → Running → resolved`). -/
inductive JStatus
  | pending
  | running
  | resolved
deriving DecidableEq, Repr

/-- The consecutive batches built by the loop
`for (let i = 0; i < tasks.length; i += batchSize)` with
`tasks.slice(i, i + batchSize)`.  For `batchSize = 0` the JS loop never
terminates; the claims only concern `batchSize ≥ 1`, and the `0` case is
given the empty list so the definition is total. -/
def batchChunks (tasks : List α) (batchSize : Nat) : List (List α) :=
  if _h : batchSize = 0 then []
  else if _h2 : tasks.length = 0 then []
  else tasks.take batchSize :: batchChunks (tasks.drop batchSize) batchSize
termination_by tasks.length
decreasing_by
  simp only [List.length_drop]
  omega

/-- `runInBatches` (src/backend/index.ts lines 183-214): the results of
the batches are pushed in order onto one list
(`results.push(...batchResults)`), so the returned list is the
concatenation of the chunks. -/
def runInBatches (tasks : List α) (batchSize : Nat) : List α :=
  (batchChunks tasks batchSize).flatten

theorem batchChunks_nil (batchSize : Nat) :
    batchChunks ([] : List α) batchSize = [] := by
  rw [batchChunks]
  simp

theorem batchChunks_zero (tasks : List α) :
    batchChunks tasks 0 = [] := by
  rw [batchChunks]
  simp

theorem batchChunks_cons (tasks : List α) (batchSize : Nat)
    (h1 : tasks ≠ []) (h2 : batchSize ≠ 0) :
    batchChunks tasks batchSize =
      tasks.take batchSize :: batchChunks (tasks.drop batchSize) batchSize := by
  rw [batchChunks]
  have : tasks.length ≠ 0 := by
    simpa [List.length_eq_zero] using h1
  simp [h2, this]

theorem batchChunks_flatten_aux (batchSize : Nat) (hb : 1 ≤ batchSize) :
    ∀ (fuel : Nat) (tasks : List α), tasks.length ≤ fuel →
      (batchChunks tasks batchSize).flatten = tasks := by
  intro fuel
  induction fuel with
  | zero =>
    intro tasks hlen
    have : tasks = [] := List.length_eq_zero.mp (by omega)
    subst this
    simp [batchChunks_nil]
  | succ fuel ih =>
    intro tasks hlen
    by_cases hnil : tasks = []
    · subst hnil
      simp [batchChunks_nil]
    · rw [batchChunks_cons tasks batchSize hnil (by omega)]
      have hl : 0 < tasks.length := List.length_pos.mpr hnil
      have := ih (tasks.drop batchSize) (by simp only [List.length_drop]; omega)
      simp [this]

/-- Joining the batches gives back the task list. -/
theorem batchChunks_flatten (batchSize : Nat) (hb : 1 ≤ batchSize)
    (tasks : List α) : (batchChunks tasks batchSize).flatten = tasks :=
  batchChunks_flatten_aux batchSize hb tasks.length tasks le_rfl

theorem batchChunks_length_le_aux (batchSize : Nat) :
    ∀ (fuel : Nat) (tasks : List α), tasks.length ≤ fuel →
      ∀ c ∈ batchChunks tasks batchSize, c.length ≤ batchSize := by
  intro fuel
  induction fuel with
  | zero =>
    intro tasks hlen
    have : tasks = [] := List.length_eq_zero.mp (by omega)
    subst this
    simp [batchChunks_nil]
  | succ fuel ih =>
    intro tasks hlen
    by_cases hb : batchSize = 0
    · subst hb
      simp [batchChunks_zero]
    · by_cases hnil : tasks = []
      · subst hnil
        simp [batchChunks_nil]
      · rw [batchChunks_cons tasks batchSize hnil hb]
        intro c hc
        rcases List.mem_cons.mp hc with hc | hc
        · subst hc
          exact List.length_take_le _ _
        · have hl : 0 < tasks.length := List.length_pos.mpr hnil
          exact ih (tasks.drop batchSize)
            (by simp only [List.length_drop]; omega) c hc

/-- Every batch has at most `batchSize` elements. -/
theorem batchChunks_length_le (batchSize : Nat) (tasks : List α) :
    ∀ c ∈ batchChunks tasks batchSize, c.length ≤ batchSize :=
  batchChunks_length_le_aux batchSize tasks.length tasks le_rfl

theorem batchChunks_getElem_aux (batchSize : Nat) (hb : 1 ≤ batchSize) :
    ∀ (c : Nat) (tasks : List α),
      (batchChunks tasks batchSize)[c]? =
        if c * batchSize < tasks.length then
          some ((tasks.drop (c * batchSize)).take batchSize)
        else none := by
  intro c
  induction c with
  | zero =>
    intro tasks
    by_cases hnil : tasks = []
    · subst hnil
      simp [batchChunks_nil]
    · rw [batchChunks_cons tasks batchSize hnil (by omega)]
      have hl : 0 < tasks.length := List.length_pos.mpr hnil
      simp [hl]
  | succ c ih =>
    intro tasks
    rw [Nat.succ_mul]
    by_cases hnil : tasks = []
    · subst hnil
      simp [batchChunks_nil]
    · rw [batchChunks_cons tasks batchSize hnil (by omega)]
      have h := ih (tasks.drop batchSize)
      rw [List.length_drop] at h
      by_cases hcase : c * batchSize < tasks.length - batchSize
      · simp only [List.getElem?_cons_succ, h, if_pos hcase]
        have hlt : c * batchSize + batchSize < tasks.length := by omega
        rw [if_pos hlt, List.drop_drop, Nat.add_comm batchSize (c * batchSize)]
      · simp only [List.getElem?_cons_succ, h, if_neg hcase]
        have hge : ¬ c * batchSize + batchSize < tasks.length := by omega
        rw [if_neg hge]

/-- Batch number `c` is exactly the slice
`tasks.slice(c * batchSize, c * batchSize + batchSize)`: the chunks are
consecutive. -/
theorem batchChunks_getElem (batchSize : Nat) (hb : 1 ≤ batchSize)
    (c : Nat) (tasks : List α) :
    (batchChunks tasks batchSize)[c]? =
      if c * batchSize < tasks.length then
        some ((tasks.drop (c * batchSize)).take batchSize)
      else none :=
  batchChunks_getElem_aux batchSize hb c tasks

/-- Initial scheduler state: every job Pending. -/
def initStatus : Nat → JStatus := fun _ => .pending

/-- Small-step semantics of one `runInBatches` invocation over jobs
`0, …, n-1`.  Job `j` belongs to chunk `j / limit` (the chunks are the
consecutive slices of size `limit`, see `batchChunks_getElem`).  The JS
loop body `tasks.slice(i, i+batchSize).map(fn => fn())` starts every job
of the current chunk before any of them can resolve, and
`await Promise.all(batch)` blocks the loop until the whole chunk has
resolved, so a chunk may only start once every job of every earlier
chunk is resolved; jobs resolve one at a time in any order. -/
inductive BatchStep (n limit : Nat) : (Nat → JStatus) → (Nat → JStatus) → Prop
  | startChunk (c : Nat) (st : Nat → JStatus)
      (hprev : ∀ j, j < n → j / limit < c → st j = .resolved)
      (hcur : ∀ j, j < n → j / limit = c → st j = .pending) :
      BatchStep n limit st
        (fun j => if j < n ∧ j / limit = c then .running else st j)
  | finishJob (j : Nat) (st : Nat → JStatus) (hj : j < n) (hr : st j = .running) :
      BatchStep n limit st (fun k => if k = j then .resolved else st k)

/-- States reachable by the batch scheduler from the all-Pending state. -/
inductive BatchReachable (n limit : Nat) : (Nat → JStatus) → Prop
  | init : BatchReachable n limit initStatus
  | step {st st'} : BatchReachable n limit st → BatchStep n limit st st' →
      BatchReachable n limit st'

/-- Chunk ordering: once a job has left Pending, every job of every
earlier chunk is resolved. -/
def ChunkOrdered (n limit : Nat) (st : Nat → JStatus) : Prop :=
  ∀ j j', j < n → j' < n → st j ≠ .pending → j' / limit < j / limit →
    st j' = .resolved

/-- All Running jobs belong to one chunk. -/
def RunningSameChunk (n limit : Nat) (st : Nat → JStatus) : Prop :=
  ∀ j j', j < n → j' < n → st j = .running → st j' = .running →
    j / limit = j' / limit

theorem batchInvariant (n limit : Nat) :
    ∀ st, BatchReachable n limit st →
      ChunkOrdered n limit st ∧ RunningSameChunk n limit st := by
  intro st hst
  induction hst with
  | init =>
    constructor
    · intro j j' _ _ hj _
      exact absurd rfl hj
    · intro j j' _ _ hj _
      exact absurd hj (by simp [initStatus])
  | step hreach hstep ih =>
    obtain ⟨ihOrd, ihRun⟩ := ih
    cases hstep with
    | startChunk c st hprev hcur =>
      constructor
      · intro j j' hjn hj'n hjp hlt
        beta_reduce at hjp ⊢
        by_cases hjc : j < n ∧ j / limit = c
        · have hj'c : ¬ (j' < n ∧ j' / limit = c) := by
            rintro ⟨_, hc⟩
            omega
          rw [if_neg hj'c]
          exact hprev j' hj'n (by omega)
        · rw [if_neg hjc] at hjp
          have hres := ihOrd j j' hjn hj'n hjp hlt
          have hj'c : ¬ (j' < n ∧ j' / limit = c) := by
            rintro ⟨_, hc⟩
            have := hcur j' hj'n hc
            rw [this] at hres
            exact JStatus.noConfusion hres
          rw [if_neg hj'c]
          exact hres
      · intro j j' hjn hj'n hjr hj'r
        beta_reduce at hjr hj'r
        by_cases hjc : j < n ∧ j / limit = c
        · by_cases hj'c : j' < n ∧ j' / limit = c
          · omega
          · rw [if_neg hj'c] at hj'r
            rcases Nat.lt_trichotomy (j' / limit) c with hlt | heq | hgt
            · have := hprev j' hj'n hlt
              rw [this] at hj'r
              exact absurd hj'r (by simp)
            · exact absurd ⟨hj'n, heq⟩ hj'c
            · exfalso
              have hjres := ihOrd j' j hj'n hjn (by rw [hj'r]; simp) (by omega)
              have := hcur j hjn hjc.2
              rw [this] at hjres
              exact JStatus.noConfusion hjres
        · rw [if_neg hjc] at hjr
          by_cases hj'c : j' < n ∧ j' / limit = c
          · rcases Nat.lt_trichotomy (j / limit) c with hlt | heq | hgt
            · have := hprev j hjn hlt
              rw [this] at hjr
              exact absurd hjr (by simp)
            · exact absurd ⟨hjn, heq⟩ hjc
            · exfalso
              have hj'res := ihOrd j j' hjn hj'n (by rw [hjr]; simp) (by omega)
              have := hcur j' hj'n hj'c.2
              rw [this] at hj'res
              exact JStatus.noConfusion hj'res
          · rw [if_neg hj'c] at hj'r
            exact ihRun j j' hjn hj'n hjr hj'r
    | finishJob j₀ st hj₀ hr =>
      constructor
      · intro j j' hjn hj'n hjp hlt
        beta_reduce at hjp ⊢
        by_cases hj' : j' = j₀
        · simp [hj']
        · rw [if_neg hj']
          by_cases hj : j = j₀
          · subst hj
            rw [if_pos rfl] at hjp
            exact ihOrd j j' hjn hj'n (by rw [hr]; simp) hlt
          · rw [if_neg hj] at hjp
            exact ihOrd j j' hjn hj'n hjp hlt
      · intro j j' hjn hj'n hjr hj'r
        beta_reduce at hjr hj'r
        by_cases hj : j = j₀
        · rw [hj, if_pos rfl] at hjr
          exact absurd hjr (by simp)
        · by_cases hj' : j' = j₀
          · rw [hj', if_pos rfl] at hj'r
            exact absurd hj'r (by simp)
          · rw [if_neg hj] at hjr
            rw [if_neg hj'] at hj'r
            exact ihRun j j' hjn hj'n hjr hj'r

/-- At most `limit` jobs are Running in any reachable scheduler state. -/
theorem batchRunning_card_le (n limit : Nat) (hlim : 1 ≤ limit) :
    ∀ st, BatchReachable n limit st →
      ((Finset.range n).filter (fun j => st j = .running)).card ≤ limit := by
  intro st hst
  by_cases hex : ∃ j₀, j₀ < n ∧ st j₀ = .running
  · obtain ⟨j₀, hj₀n, hj₀r⟩ := hex
    have hsame := (batchInvariant n limit st hst).2
    have hsub : (Finset.range n).filter (fun j => st j = .running) ⊆
        Finset.Ico (j₀ / limit * limit) (j₀ / limit * limit + limit) := by
      intro j hj
      rw [Finset.mem_filter, Finset.mem_range] at hj
      obtain ⟨hjn, hjr⟩ := hj
      have hchunk : j / limit = j₀ / limit := hsame j j₀ hjn hj₀n hjr hj₀r
      rw [Finset.mem_Ico]
      have h1 : j / limit * limit ≤ j := Nat.div_mul_le_self j limit
      have h2 : limit * (j / limit) + j % limit = j := Nat.div_add_mod j limit
      have h3 : j % limit < limit := Nat.mod_lt j (by omega)
      have h4 : limit * (j / limit) = j / limit * limit := Nat.mul_comm _ _
      rw [hchunk] at h1 h2 h4
      omega
    have := Finset.card_le_card hsub
    rw [Nat.card_Ico] at this
    omega
  · push_neg at hex
    have : (Finset.range n).filter (fun j => st j = .running) = ∅ := by
      rw [Finset.filter_eq_empty_iff]
      intro j hj
      rw [Finset.mem_range] at hj
      exact hex j hj
    rw [this]
    simp

/-- Claim C2: for every job list and every `limit ≥ 1`, `runInBatches`
partitions the jobs into consecutive chunks of size at most `limit`
(chunk `c` is the slice starting at index `c * limit`), a job of chunk
`k + 1` never leaves Pending before every job of every earlier chunk has
resolved, and in no reachable state are more than `limit` jobs of the
group concurrently Running. -/
theorem C2_runInBatches_chunk_schedule {α : Type} (tasks : List α)
    (n limit : Nat) (hlim : 1 ≤ limit) :
    (∀ c, (batchChunks tasks limit)[c]? =
        if c * limit < tasks.length then
          some ((tasks.drop (c * limit)).take limit)
        else none)
    ∧ (∀ chunk ∈ batchChunks tasks limit, chunk.length ≤ limit)
    ∧ (∀ st, BatchReachable n limit st →
        ∀ j j', j < n → j' < n → st j ≠ .pending → j' / limit < j / limit →
          st j' = .resolved)
    ∧ (∀ st, BatchReachable n limit st →
        ((Finset.range n).filter (fun j => st j = .running)).card ≤ limit) := by
  refine ⟨fun c => batchChunks_getElem limit hlim c tasks,
    batchChunks_length_le limit tasks, ?_, batchRunning_card_le n limit hlim⟩
  intro st hst
  exact (batchInvariant n limit st hst).1

theorem C2_witness :
    1 ≤ 2 ∧
    ((batchChunks [10, 20, 30] 2)[0]? = some [10, 20] ∧
      ((Finset.range 3).filter (fun j => initStatus j = .running)).card ≤ 2) := by
  refine ⟨by decide, ?_, ?_⟩
  · have h := (C2_runInBatches_chunk_schedule [10, 20, 30] 3 2 (by decide)).1 0
    rw [h]
    decide
  · exact (C2_runInBatches_chunk_schedule ([] : List Nat) 3 2
      (by decide)).2.2.2 initStatus BatchReachable.init

/-- Claim C10: for every task list and every `batchSize ≥ 1`, assuming
every task resolves, `runInBatches` returns exactly one result per
submitted task, and the result list equals the list of the tasks'
resolved values in submission order (`Promise.all` keeps the order of a
batch, and batches are appended in order). -/
theorem C10_runInBatches_one_result_per_task {α : Type} (tasks : List α)
    (batchSize : Nat) (h : 1 ≤ batchSize) :
    (runInBatches tasks batchSize).length = tasks.length ∧
    runInBatches tasks batchSize = tasks := by
  have hfl := batchChunks_flatten batchSize h tasks
  unfold runInBatches
  exact ⟨by rw [hfl], hfl⟩

theorem C10_witness :
    1 ≤ 2 ∧ runInBatches [3, 5, 7] 2 = [3, 5, 7] :=
  ⟨by decide, (C10_runInBatches_one_result_per_task [3, 5, 7] 2 (by decide)).2⟩

/-- State of one search run's two resource groups (`scrapeAllSites`,
src/backend/index.ts lines 520-554): the per-job statuses plus one
closed-flag per Stagehand instance.  `prox j` tells which group job `j`
belongs to (`config.useProxies`). -/
structure GState where
  status : Nat → JStatus
  closedProxy : Bool
  closedDirect : Bool

def GState.closedOf (s : GState) (g : Bool) : Bool :=
  if g then s.closedProxy else s.closedDirect

def setClosed (s : GState) (g : Bool) : GState :=
  if g then { s with closedProxy := true } else { s with closedDirect := true }

inductive GLabel
  | startJob (j : Nat)
  | finishJob (j : Nat)
  | closeGroupEnv (g : Bool)
deriving DecidableEq, Repr

/-- Transitions of the two-group run.  Job starts and finishes are free
to interleave (this over-approximates the batch schedule, so every
invariant proved over it also holds of the real schedule); the
`closeGroupEnv` transition is the `.then(... stagehand.close() ...)`
continuation hung on a group's `runInBatches` promise: it can fire
exactly when the group is non-empty (the code resolves an empty group
with `Promise.resolve([])` and never closes it — the deployed registry
gives both groups at least one site), all of the group's jobs have
resolved, and the instance is not already closed. -/
inductive GStep (n : Nat) (prox : Nat → Bool) : GState → GLabel → GState → Prop
  | startJob (j : Nat) (s : GState) (hj : j < n) (hp : s.status j = .pending) :
      GStep n prox s (.startJob j)
        ⟨fun k => if k = j then .running else s.status k,
          s.closedProxy, s.closedDirect⟩
  | finishJob (j : Nat) (s : GState) (hj : j < n) (hr : s.status j = .running) :
      GStep n prox s (.finishJob j)
        ⟨fun k => if k = j then .resolved else s.status k,
          s.closedProxy, s.closedDirect⟩
  | closeGroupEnv (g : Bool) (s : GState)
      (hne : ∃ j, j < n ∧ prox j = g)
      (hall : ∀ j, j < n → prox j = g → s.status j = .resolved)
      (hnc : s.closedOf g = false) :
      GStep n prox s (.closeGroupEnv g) (setClosed s g)

def initG : GState := ⟨fun _ => .pending, false, false⟩

inductive GPath (n : Nat) (prox : Nat → Bool) : GState → List GLabel → GState → Prop
  | nil (s : GState) : GPath n prox s [] s
  | cons {s₁ s₂ s₃ : GState} {l : GLabel} {tr : List GLabel} :
      GStep n prox s₁ l s₂ → GPath n prox s₂ tr s₃ → GPath n prox s₁ (l :: tr) s₃

def GReachable (n : Nat) (prox : Nat → Bool) (s : GState) : Prop :=
  ∃ tr, GPath n prox initG tr s

/-- A state with no enabled transition: the run is over. -/
def GFinal (n : Nat) (prox : Nat → Bool) (s : GState) : Prop :=
  ∀ l s', ¬ GStep n prox s l s'

theorem gstep_closedOf_mono {n : Nat} {prox : Nat → Bool} {s s' : GState}
    {l : GLabel} (g : Bool) (h : GStep n prox s l s') :
    s.closedOf g = true → s'.closedOf g = true := by
  intro hc
  cases h with
  | startJob j s hj hp => exact hc
  | finishJob j s hj hr => exact hc
  | closeGroupEnv g' s hne hall hnc =>
    unfold setClosed GState.closedOf at *
    cases g <;> cases g' <;> simp_all

theorem gpath_closedOf_mono {n : Nat} {prox : Nat → Bool} {s s' : GState}
    {tr : List GLabel} (g : Bool) (h : GPath n prox s tr s') :
    s.closedOf g = true → s'.closedOf g = true := by
  induction h with
  | nil s => exact id
  | cons hstep hrest ih => exact fun hc => ih (gstep_closedOf_mono g hstep hc)

theorem gstep_preserves_closed_resolved {n : Nat} {prox : Nat → Bool}
    {s s' : GState} {l : GLabel} (h : GStep n prox s l s')
    (ih : ∀ g : Bool, s.closedOf g = true →
      ∀ j, j < n → prox j = g → s.status j = .resolved) :
    ∀ g : Bool, s'.closedOf g = true →
      ∀ j, j < n → prox j = g → s'.status j = .resolved := by
  intro g hc j hj hg
  cases h with
  | startJob j₀ s hj₀ hp =>
    have hc' : s.closedOf g = true := hc
    have hres := ih g hc' j hj hg
    show (if j = j₀ then JStatus.running else s.status j) = JStatus.resolved
    by_cases hjj : j = j₀
    · subst hjj
      rw [hres] at hp
      exact JStatus.noConfusion hp
    · rw [if_neg hjj]
      exact hres
  | finishJob j₀ s hj₀ hr =>
    have hc' : s.closedOf g = true := hc
    show (if j = j₀ then JStatus.resolved else s.status j) = JStatus.resolved
    by_cases hjj : j = j₀
    · rw [if_pos hjj]
    · rw [if_neg hjj]
      exact ih g hc' j hj hg
  | closeGroupEnv g' s hne hall hnc =>
    have hstat : (setClosed s g').status = s.status := by
      unfold setClosed
      cases g' <;> rfl
    rw [hstat]
    by_cases hgg : g = g'
    · subst hgg
      exact hall j hj hg
    · have hcg : s.closedOf g = true := by
        unfold setClosed GState.closedOf at hc
        unfold GState.closedOf
        cases g <;> cases g' <;> simp_all
      exact ih g hcg j hj hg

theorem gpath_preserves_closed_resolved {n : Nat} {prox : Nat → Bool}
    {s s' : GState} {tr : List GLabel} (h : GPath n prox s tr s') :
    (∀ g : Bool, s.closedOf g = true →
      ∀ j, j < n → prox j = g → s.status j = .resolved) →
    (∀ g : Bool, s'.closedOf g = true →
      ∀ j, j < n → prox j = g → s'.status j = .resolved) := by
  induction h with
  | nil s => exact id
  | cons hstep hrest ih =>
    exact fun hp => ih (gstep_preserves_closed_resolved hstep hp)

/-- Safety: whenever a group's environment has been closed, every job of
that group has already resolved. -/
theorem gClosed_implies_resolved (n : Nat) (prox : Nat → Bool) :
    ∀ s, GReachable n prox s → ∀ g : Bool, s.closedOf g = true →
      ∀ j, j < n → prox j = g → s.status j = .resolved := by
  intro s hs
  obtain ⟨tr, hpath⟩ := hs
  refine gpath_preserves_closed_resolved hpath ?_
  intro g hc
  unfold initG GState.closedOf at hc
  cases g <;> simp_all

theorem gpath_count_close_zero {n : Nat} {prox : Nat → Bool} (g : Bool) :
    ∀ {s s' : GState} {tr : List GLabel}, GPath n prox s tr s' →
      s.closedOf g = true → tr.count (GLabel.closeGroupEnv g) = 0 := by
  intro s s' tr h
  induction h with
  | nil s =>
    intro _
    simp
  | cons hstep hrest ih =>
    rename_i s₁ s₂ s₃ l tr'
    intro hc
    have hc₂ := gstep_closedOf_mono g hstep hc
    have h0 := ih hc₂
    rw [List.count_cons, h0]
    have hl : ¬ (l = GLabel.closeGroupEnv g) := by
      intro he
      subst he
      cases hstep with
      | closeGroupEnv g' s hne hall hnc =>
        rw [hc] at hnc
        exact Bool.noConfusion hnc
    simp [hl]

theorem gpath_count_close {n : Nat} {prox : Nat → Bool} (g : Bool) :
    ∀ {s s' : GState} {tr : List GLabel}, GPath n prox s tr s' →
      s.closedOf g = false →
      tr.count (GLabel.closeGroupEnv g) = (if s'.closedOf g then 1 else 0) := by
  intro s s' tr h
  induction h with
  | nil s =>
    intro hc
    simp [hc]
  | cons hstep hrest ih =>
    rename_i s₁ s₂ s₃ l tr'
    intro hc
    by_cases hl : l = GLabel.closeGroupEnv g
    · subst hl
      cases hstep with
      | closeGroupEnv g' s hne hall hnc =>
        have hc₂ : (setClosed s₁ g).closedOf g = true := by
          unfold setClosed GState.closedOf
          cases g <;> simp
        have h0 := gpath_count_close_zero g hrest hc₂
        have hc₃ : s₃.closedOf g = true := gpath_closedOf_mono g hrest hc₂
        rw [List.count_cons, h0, hc₃]
        simp
    · have hc₂ : s₂.closedOf g = false := by
        cases hstep with
        | startJob j s hj hp => exact hc
        | finishJob j s hj hr => exact hc
        | closeGroupEnv g' s hne hall hnc =>
          have hgg : g' ≠ g := fun he => hl (by rw [he])
          unfold setClosed
          unfold GState.closedOf at hc ⊢
          cases g <;> cases g' <;> simp_all
      have hrec := ih hc₂
      rw [List.count_cons, hrec]
      simp [hl]

/-- In a state with no enabled transition every job has resolved. -/
theorem gfinal_resolved {n : Nat} {prox : Nat → Bool} {s : GState}
    (hf : GFinal n prox s) : ∀ j, j < n → s.status j = .resolved := by
  intro j hj
  cases hst : s.status j with
  | pending => exact absurd (GStep.startJob j s hj hst) (hf _ _)
  | running => exact absurd (GStep.finishJob j s hj hst) (hf _ _)
  | resolved => rfl

/-- In a final state every non-empty group's environment is closed. -/
theorem gfinal_closed {n : Nat} {prox : Nat → Bool} {s : GState}
    (hf : GFinal n prox s) (g : Bool) (hne : ∃ j, j < n ∧ prox j = g) :
    s.closedOf g = true := by
  cases hcl : s.closedOf g with
  | false =>
    have hall : ∀ j, j < n → prox j = g → s.status j = .resolved :=
      fun j hj _ => gfinal_resolved hf j hj
    exact absurd (GStep.closeGroupEnv g s hne hall hcl) (hf _ _)
  | true => rfl

/-- Claim C8: for each non-empty resource group `g`, the group's
Stagehand instance is closed exactly once per complete run (`count = 1`
on every maximal trace), it is closed only after every job assigned to
the group has resolved (safety invariant over all reachable states), and
the close transition is enabled as soon as the group's own jobs have all
resolved — its precondition mentions nothing about the other group, so
the close does not wait for the other group's jobs. -/
theorem C8_releaseGroup_exactly_once (n : Nat) (prox : Nat → Bool) (g : Bool) :
    (∀ s, GReachable n prox s → s.closedOf g = true →
        ∀ j, j < n → prox j = g → s.status j = .resolved)
    ∧ (∀ tr s, GPath n prox initG tr s → GFinal n prox s →
        (∃ j, j < n ∧ prox j = g) → tr.count (GLabel.closeGroupEnv g) = 1)
    ∧ (∀ s : GState, (∃ j, j < n ∧ prox j = g) →
        (∀ j, j < n → prox j = g → s.status j = .resolved) →
        s.closedOf g = false →
        GStep n prox s (GLabel.closeGroupEnv g) (setClosed s g)) := by
  refine ⟨?_, ?_, ?_⟩
  · intro s hs hc
    exact gClosed_implies_resolved n prox s hs g hc
  · intro tr s hpath hfin hne
    have hcl : s.closedOf g = true := gfinal_closed hfin g hne
    have hcnt := gpath_count_close g hpath
      (by unfold initG GState.closedOf; cases g <;> rfl)
    rw [hcnt, hcl]
    rfl
  · intro s hne hall hnc
    exact GStep.closeGroupEnv g s hne hall hnc

/-- The deployed registry's group assignment shape: job 0 is the proxy
group (bca), the remaining jobs are the direct group. -/
def proxTwo : Nat → Bool := fun j => decide (j = 0)

def gsA : GState := ⟨fun k => if k = 0 then .running else initG.status k, false, false⟩

def gsB : GState := ⟨fun k => if k = 0 then .resolved else gsA.status k, false, false⟩

def gsC : GState := setClosed gsB true

def gsD : GState := ⟨fun k => if k = 1 then .running else gsC.status k, true, false⟩

def gsE : GState := ⟨fun k => if k = 1 then .resolved else gsD.status k, true, false⟩

def gsF : GState := setClosed gsE false

theorem C8_witness :
    List.count (GLabel.closeGroupEnv true)
      [GLabel.startJob 0, GLabel.finishJob 0, GLabel.closeGroupEnv true,
        GLabel.startJob 1, GLabel.finishJob 1, GLabel.closeGroupEnv false] = 1 := by
  have hpath : GPath 2 proxTwo initG
      [GLabel.startJob 0, GLabel.finishJob 0, GLabel.closeGroupEnv true,
        GLabel.startJob 1, GLabel.finishJob 1, GLabel.closeGroupEnv false] gsF := by
    refine GPath.cons (GStep.startJob 0 initG (by decide) (by decide)) ?_
    refine GPath.cons (GStep.finishJob 0 gsA (by decide) (by decide)) ?_
    refine GPath.cons (GStep.closeGroupEnv true gsB ⟨0, by decide⟩ ?hall1
      (by decide)) ?_
    case hall1 =>
      intro j hj hg
      interval_cases j
      · decide
      · exact absurd hg (by decide)
    refine GPath.cons (GStep.startJob 1 gsC (by decide) (by decide)) ?_
    refine GPath.cons (GStep.finishJob 1 gsD (by decide) (by decide)) ?_
    refine GPath.cons (GStep.closeGroupEnv false gsE ⟨1, by decide⟩ ?hall2
      (by decide)) ?_
    case hall2 =>
      intro j hj hg
      interval_cases j
      · exact absurd hg (by decide)
      · decide
    exact GPath.nil gsF
  have hfin : GFinal 2 proxTwo gsF := by
    intro l s' h
    cases h with
    | startJob j s hj hp =>
      interval_cases j
      · exact absurd hp (by decide)
      · exact absurd hp (by decide)
    | finishJob j s hj hr =>
      interval_cases j
      · exact absurd hr (by decide)
      · exact absurd hr (by decide)
    | closeGroupEnv g s hne hall hnc =>
      cases g
      · exact absurd hnc (by decide)
      · exact absurd hnc (by decide)
  exact (C8_releaseGroup_exactly_once 2 proxTwo true).2.1 _ gsF hpath hfin
    ⟨0, by decide⟩

/-- Observable events of one `processSite` call, in program order. -/
inductive PEvent
  | pageCreated
  | blockingSetUp
  | loginAttempt
  | navigateToSearch
  | filtersApply
  | extractRun
  | progressEmit
  | pageClosed
deriving DecidableEq, Repr

structure LoginCredentials where
  username : String
  password : String
deriving DecidableEq, Repr

/-- The fields of a `SiteConfig` that `processSite` inspects. -/
structure SiteCfg where
  name : String
  shouldNavigateToSearchUrl : Bool
  hasBuildSearchUrl : Bool
  hasApplyFilters : Bool
  hasExtractCars : Bool
  useProxies : Bool
deriving DecidableEq, Repr

/-- Outcomes of the suspended driver calls made during one job: each
`await`ed call either resolves (`true` / `.ok records`) or rejects.  A
rejection carries the thrown message for `extractCars`. -/
structure SiteRun (α : Type) where
  loginOk : Bool
  navOk : Bool
  filtersOk : Bool
  extractOutcome : Except String (List α)
deriving Repr

/-- The credential check of lines 366-372: the entry must exist and the
JS-truthiness test `!credentials.username || !credentials.password`
throws on an empty string. -/
def credentialsOk (creds : Option LoginCredentials) : Bool :=
  match creds with
  | none => false
  | some c => !c.username.isEmpty && !c.password.isEmpty

/-- `processSite` (src/backend/index.ts lines 323-496).  The page is
created and the resource-blocking route installed before the `try`
block; inside it the credential check, `login`, the optional navigation
to a built search URL, `applyFilters` and `extractCars` run in order,
any rejection is caught (line 487) and turns the result into `null`
(embedded as `none`); the `finally` always closes the page.
`onProgress` is invoked only when it was provided and `extractedData` is
JS-truthy — the empty array is truthy, `null` is not, so a progress
callback fires exactly for jobs whose extraction succeeded. -/
def processSite (cfg : SiteCfg) (creds : Option LoginCredentials)
    (run : SiteRun α) (hasOnProgress : Bool) :
    Option (List α) × List PEvent :=
  let pre := [PEvent.pageCreated, PEvent.blockingSetUp]
  if !(credentialsOk creds) then
    (none, pre ++ [PEvent.pageClosed])
  else if !run.loginOk then
    (none, pre ++ [PEvent.loginAttempt, PEvent.pageClosed])
  else
    let navNeeded := cfg.shouldNavigateToSearchUrl && cfg.hasBuildSearchUrl
    let evLogin := pre ++ [PEvent.loginAttempt]
    if navNeeded && !run.navOk then
      (none, evLogin ++ [PEvent.navigateToSearch, PEvent.pageClosed])
    else
      let evNav := evLogin ++ (if navNeeded then [PEvent.navigateToSearch] else [])
      if cfg.hasApplyFilters && !run.filtersOk then
        (none, evNav ++ [PEvent.filtersApply, PEvent.pageClosed])
      else
        let evFil := evNav ++ (if cfg.hasApplyFilters then [PEvent.filtersApply] else [])
        if cfg.hasExtractCars then
          match run.extractOutcome with
          | .error _ => (none, evFil ++ [PEvent.extractRun, PEvent.pageClosed])
          | .ok records =>
            if hasOnProgress then
              (some records,
                evFil ++ [PEvent.extractRun, PEvent.progressEmit, PEvent.pageClosed])
            else
              (some records, evFil ++ [PEvent.extractRun, PEvent.pageClosed])
        else
          (none, evFil ++ [PEvent.pageClosed])

/-- One registered site of a run: its config, its credential-table
entry, and the outcomes of its driver calls. -/
structure SiteEntry (α : Type) where
  cfg : SiteCfg
  creds : Option LoginCredentials
  run : SiteRun α

def processEntry (hasOnProgress : Bool) (e : SiteEntry α) :
    Option (List α) × List PEvent :=
  processSite e.cfg e.creds e.run hasOnProgress

/-- One group's results (lines 520-554): an empty group resolves with
`Promise.resolve([])`; a non-empty one is run through `runInBatches`
with limit `Math.min(concurrencyLimit, group.length)`. -/
def groupResults (hasOnProgress : Bool) (limit : Nat)
    (group : List (SiteEntry α)) : List (Option (List α)) :=
  if group.length > 0 then
    runInBatches (group.map fun e => (processEntry hasOnProgress e).1)
      (min limit group.length)
  else []

/-- The per-site results list `[...proxyResults, ...nonProxyResults]`
(line 557): one entry per site, proxy group first. -/
def scrapeResults (limit : Nat) (hasOnProgress : Bool)
    (sites : List (SiteEntry α)) : List (Option (List α)) :=
  groupResults hasOnProgress limit (sites.filter fun e => e.cfg.useProxies)
    ++ groupResults hasOnProgress limit (sites.filter fun e => !e.cfg.useProxies)

/-- The push step of the aggregation loop (lines 560-574): an array
result is spread into the aggregate, a `null` result is skipped. -/
def pushSiteData (acc : List α) (r : Option (List α)) : List α :=
  match r with
  | some l => acc ++ l
  | none => acc

/-- The final aggregate `allCarData` (lines 560-574). -/
def scrapeAllSites (limit : Nat) (hasOnProgress : Bool)
    (sites : List (SiteEntry α)) : List α :=
  (scrapeResults limit hasOnProgress sites).foldl pushSiteData []

/-- Number of `onProgress` invocations over a whole run. -/
def progressCount (hasOnProgress : Bool) (sites : List (SiteEntry α)) : Nat :=
  (sites.map fun e => (processEntry hasOnProgress e).2.count PEvent.progressEmit).sum

/-- A job's extraction phase completed: credentials present, login,
navigation and filters resolved, and `extractCars` exists and resolved. -/
def extractionSucceeds (e : SiteEntry α) : Bool :=
  credentialsOk e.creds && e.run.loginOk
    && (!(e.cfg.shouldNavigateToSearchUrl && e.cfg.hasBuildSearchUrl) || e.run.navOk)
    && (!e.cfg.hasApplyFilters || e.run.filtersOk)
    && e.cfg.hasExtractCars
    && (match e.run.extractOutcome with | .ok _ => true | .error _ => false)

theorem groupResults_map (hasOnProgress : Bool) (limit : Nat) (hl : 1 ≤ limit)
    (group : List (SiteEntry α)) :
    groupResults hasOnProgress limit group =
      group.map fun e => (processEntry hasOnProgress e).1 := by
  unfold groupResults runInBatches
  by_cases h : group.length > 0
  · rw [if_pos h, batchChunks_flatten _ (by omega)]
  · rw [if_neg h]
    have : group = [] := List.length_eq_zero.mp (by omega)
    rw [this]
    rfl

theorem filter_partition_length (l : List β) (p : β → Bool) :
    (l.filter p).length + (l.filter fun x => !(p x)).length = l.length := by
  induction l with
  | nil => rfl
  | cons x xs ih =>
    cases hx : p x <;> simp [List.filter_cons, hx, ← ih] <;> omega

theorem scrapeResults_eq (limit : Nat) (hl : 1 ≤ limit) (hasOnProgress : Bool)
    (sites : List (SiteEntry α)) :
    scrapeResults limit hasOnProgress sites =
      ((sites.filter fun e => e.cfg.useProxies).map
          fun e => (processEntry hasOnProgress e).1)
        ++ ((sites.filter fun e => !e.cfg.useProxies).map
          fun e => (processEntry hasOnProgress e).1) := by
  unfold scrapeResults
  rw [groupResults_map hasOnProgress limit hl, groupResults_map hasOnProgress limit hl]

theorem scrapeResults_length (limit : Nat) (hl : 1 ≤ limit) (hasOnProgress : Bool)
    (sites : List (SiteEntry α)) :
    (scrapeResults limit hasOnProgress sites).length = sites.length := by
  rw [scrapeResults_eq limit hl hasOnProgress sites]
  simp only [List.length_append, List.length_map]
  exact filter_partition_length sites _

theorem foldl_appendSome (rs : List (Option (List α))) :
    ∀ acc : List α,
      rs.foldl pushSiteData acc = acc ++ (rs.map (fun r => r.getD [])).flatten := by
  induction rs with
  | nil =>
    intro acc
    simp
  | cons r rs ih =>
    intro acc
    cases r <;> simp [pushSiteData, ih, List.append_assoc]

theorem scrapeAllSites_eq_flatten (limit : Nat) (hasOnProgress : Bool)
    (sites : List (SiteEntry α)) :
    scrapeAllSites limit hasOnProgress sites =
      ((scrapeResults limit hasOnProgress sites).map (fun r => r.getD [])).flatten := by
  unfold scrapeAllSites
  rw [foldl_appendSome]
  rfl

/-- Claim C1 (amended): every site job yields exactly one per-site
result even when it fails — the per-site results list has one entry per
site and the caller gets a value, not an exception — but the failure
path produces the JS `null` (`none`), which carries no error message,
and in the final flattened aggregate a failed site is indistinguishable
from a site that merely returned zero records: replacing a failed site
by a zero-record site of the same group leaves the aggregate unchanged. -/
theorem C1_one_result_per_site {α : Type} (limit : Nat) (hl : 1 ≤ limit)
    (hasOnProgress : Bool) :
    (∀ sites : List (SiteEntry α),
        (scrapeResults limit hasOnProgress sites).length = sites.length)
    ∧ (∀ (cfg : SiteCfg) (creds : Option LoginCredentials) (run : SiteRun α)
        (msg : String), run.extractOutcome = .error msg →
        (processSite cfg creds run hasOnProgress).1 = none)
    ∧ (∀ (pre post : List (SiteEntry α)) (f z : SiteEntry α),
        f.cfg.useProxies = z.cfg.useProxies →
        (processEntry hasOnProgress f).1 = none →
        (processEntry hasOnProgress z).1 = some [] →
        scrapeAllSites limit hasOnProgress (pre ++ f :: post) =
          scrapeAllSites limit hasOnProgress (pre ++ z :: post)) := by
  refine ⟨scrapeResults_length limit hl hasOnProgress, ?_, ?_⟩
  · intro cfg creds run msg hexo
    simp only [processSite, hexo]
    split_ifs <;> simp
  · intro pre post f z hpp hf hz
    rw [scrapeAllSites_eq_flatten, scrapeAllSites_eq_flatten,
      scrapeResults_eq limit hl, scrapeResults_eq limit hl]
    cases hfb : f.cfg.useProxies with
    | true =>
      have hzb : z.cfg.useProxies = true := by rw [← hpp, hfb]
      simp [List.filter_append, List.filter_cons, hfb, hzb, hf, hz]
    | false =>
      have hzb : z.cfg.useProxies = false := by rw [← hpp, hfb]
      simp [List.filter_append, List.filter_cons, hfb, hzb, hf, hz]

def extractFailEntry : SiteEntry Nat :=
  ⟨⟨"carwow", false, false, true, true, false⟩, some ⟨"u", "p"⟩,
    ⟨true, true, true, .error "boom"⟩⟩

def zeroRecordsEntry : SiteEntry Nat :=
  ⟨⟨"motorway", false, false, true, true, false⟩, some ⟨"u", "p"⟩,
    ⟨true, true, true, .ok []⟩⟩

/-- Claim C1 counterexample: a site whose extraction rejects with
message "boom" yields the per-site result `none` — the JS `null`, not
an empty-records result carrying the error message — and the final
aggregate of a run whose only site failed equals that of a run whose
only site succeeded with zero records, so the failure is not
distinguishable in the final aggregate. -/
theorem C1_counterexample :
    (processEntry true extractFailEntry).1 = none ∧
    scrapeAllSites 5 true [extractFailEntry] =
      scrapeAllSites 5 true [zeroRecordsEntry] := by
  constructor
  · decide
  · rw [scrapeAllSites_eq_flatten, scrapeAllSites_eq_flatten,
      scrapeResults_eq 5 (by omega), scrapeResults_eq 5 (by omega)]
    decide

theorem C1_witness :
    1 ≤ 5 ∧
    (scrapeResults 5 true [zeroRecordsEntry]).length = 1 ∧
    scrapeAllSites 5 true ([] ++ extractFailEntry :: []) =
      scrapeAllSites 5 true ([] ++ zeroRecordsEntry :: []) := by
  refine ⟨by decide, ?_, ?_⟩
  · have h := (C1_one_result_per_site 5 (by decide) true).1 [zeroRecordsEntry]
    simpa using h
  · exact (C1_one_result_per_site 5 (by decide) true).2.2 [] []
      extractFailEntry zeroRecordsEntry (by decide) (by decide) (by decide)

set_option maxHeartbeats 3200000 in
/-- Claim C3 (amended): a progress notification is emitted exactly once
per site whose extraction succeeded — including zero-record successes,
since the empty array is JS-truthy — and never for a failed job (or a
job without an `extractCars` function), so the number of emissions
equals the number of successfully extracted sites, not the number of
sites. -/
theorem C3_progress_per_successful_site {α : Type} (hasOnProgress : Bool)
    (e : SiteEntry α) :
    (processEntry hasOnProgress e).2.count PEvent.progressEmit =
      if hasOnProgress && extractionSucceeds e then 1 else 0 := by
  obtain ⟨⟨nm, snav, sbuild, hasF, hasE, prox⟩, creds, ⟨lok, nok, fok, exo⟩⟩ := e
  unfold processEntry extractionSucceeds processSite
  cases hcred : credentialsOk creds <;>
    cases lok <;> cases nok <;> cases fok <;>
    cases snav <;> cases sbuild <;> cases hasF <;> cases hasE <;>
    cases exo <;> cases hasOnProgress <;>
      simp [List.count_append, List.count_cons]

def failingLoginEntry : SiteEntry Nat :=
  ⟨⟨"motorway", false, false, true, true, false⟩, some ⟨"user", "pw"⟩,
    ⟨false, true, true, .ok []⟩⟩

/-- Claim C3 counterexample: in a run with one site whose login rejects
and a progress callback provided, zero progress events are emitted,
although the run has one site — a failed JobResult produces no progress
emission. -/
theorem C3_counterexample :
    progressCount true [failingLoginEntry] = 0 ∧
    [failingLoginEntry].length = 1 := by
  decide

theorem C3_witness :
    (processEntry true zeroRecordsEntry).2.count PEvent.progressEmit = 1 := by
  have h := C3_progress_per_successful_site true zeroRecordsEntry
  rw [h]
  decide

/-- Claim C9 (amended): a site with missing or empty credentials fails
immediately — the result is `null` and the trace shows no
authentication, navigation, filter or extraction attempt — but a
browser page is created (and closed) for the site before the credential
check, so a browser context IS consumed on the unauthenticatable site. -/
theorem C9_missing_credentials_fail_fast {α : Type} (cfg : SiteCfg)
    (creds : Option LoginCredentials) (run : SiteRun α) (hasOnProgress : Bool)
    (h : credentialsOk creds = false) :
    (processSite cfg creds run hasOnProgress).1 = none ∧
    (processSite cfg creds run hasOnProgress).2 =
      [PEvent.pageCreated, PEvent.blockingSetUp, PEvent.pageClosed] := by
  unfold processSite
  rw [h]
  exact ⟨rfl, rfl⟩

def credsEmptyUser : Option LoginCredentials := some ⟨"", "secret"⟩

def cfgProxySample : SiteCfg := ⟨"bca", false, false, true, true, true⟩

def runAllOk : SiteRun Nat := ⟨true, true, true, .ok []⟩

/-- Claim C9 counterexample: with an empty username the job does resolve
as Failed before authentication, but the trace contains `pageCreated` —
`context.newPage()` runs before the credential check, so a browser
context is consumed on the unauthenticatable site. -/
theorem C9_counterexample :
    (processSite cfgProxySample credsEmptyUser runAllOk true).1 = none ∧
    PEvent.pageCreated ∈ (processSite cfgProxySample credsEmptyUser runAllOk true).2 ∧
    PEvent.loginAttempt ∉ (processSite cfgProxySample credsEmptyUser runAllOk true).2 := by
  decide

theorem C9_witness :
    credentialsOk credsEmptyUser = false ∧
    (processSite cfgProxySample credsEmptyUser runAllOk true).1 = none :=
  ⟨by decide, (C9_missing_credentials_fail_fast cfgProxySample credsEmptyUser
    runAllOk true (by decide)).1⟩

/-- `cartotradeConfig` as `processSite` sees it: no search-URL
navigation, an `applyFilters` and an `extractCars` function, created on
the non-proxy Stagehand instance. -/
def cartotradeCfg : SiteCfg := ⟨"CarToTrade", false, false, true, true, false⟩

/-- `disposalnetworkConfig` as `processSite` sees it. -/
def disposalnetworkCfg : SiteCfg := ⟨"disposalnetwork", false, false, true, true, false⟩

/-- Helper: a job whose driver calls all resolve and whose extraction
resolves with `records` produces the per-site result `some records`. -/
theorem processSite_ok_records {α : Type} (cfg : SiteCfg)
    (creds : Option LoginCredentials) (records : List α) (hp : Bool)
    (hcred : credentialsOk creds = true) (hext : cfg.hasExtractCars = true) :
    (processSite cfg creds ⟨true, true, true, .ok records⟩ hp).1 = some records := by
  unfold processSite
  cases hp <;> simp [hcred, hext]

/-- Helper: a job whose `applyFilters` call rejects is caught at the
job boundary and produces the failure value `none`, whatever the
extraction would have returned. -/
theorem processSite_filters_reject {α : Type} (cfg : SiteCfg)
    (creds : Option LoginCredentials) (exo : Except String (List α)) (hp : Bool)
    (hcred : credentialsOk creds = true)
    (hnav : cfg.shouldNavigateToSearchUrl = false)
    (hfil : cfg.hasApplyFilters = true) :
    (processSite cfg creds ⟨true, true, false, exo⟩ hp).1 = none := by
  unfold processSite
  simp [hcred, hnav, hfil]

end Backend

/-- JS `String.prototype.includes`: the needle occurs as a contiguous
substring. -/
def jsIncludes (s sub : String) : Bool :=
  decide (sub.data <:+: s.data)

/-- JS `String.prototype.toUpperCase`, characterwise. -/
def upperChars (s : String) : List Char :=
  s.data.map Char.toUpper

/-- JS truthiness of `s.trim()`: the string has a non-whitespace
character. -/
def jsTrimNonempty (s : String) : Bool :=
  s.data.any fun c => !c.isWhitespace

/-- JS truthiness of `params.x && params.x.trim()` for an optional
string field: present and not whitespace-only. -/
def jsStrGiven (o : Option String) : Bool :=
  match o with
  | none => false
  | some s => jsTrimNonempty s

/-- JS `x || d` for an optional string: `undefined` and the empty
string are falsy. -/
def jsOrStr (o : Option String) (d : String) : String :=
  match o with
  | none => d
  | some s => if s.isEmpty then d else s

/-- The search criteria (`SearchParams` of src/types): all fields
optional. -/
structure SearchParams where
  make : Option String := none
  model : Option String := none
  color : Option String := none
  minPrice : Option Int := none
  maxPrice : Option Int := none
  minMileage : Option Int := none
  maxMileage : Option Int := none
  minAge : Option Int := none
  maxAge : Option Int := none
deriving Repr

namespace Carto

/-- The requested model has a matching option in the `#vehicleRangeId`
dropdown: some option text is non-empty (JS-truthy) and its upper-case
form contains the upper-case model (part_005 lines 201-218). -/
def modelOptionAvailable (opts : List String) (m : String) : Bool :=
  opts.any fun t => !t.isEmpty && decide (upperChars m <:+: upperChars t)

/-- The `_cartotradeSearchExecuted` page flag after `applyFilters`
(part_005 lines 189-248): when a model is requested and no dropdown
option matches, the flag is set to `false` and the function returns
early; on every other path it ends up `true`. -/
def searchExecuted (modelParam : Option String) (opts : List String) : Bool :=
  match modelParam with
  | none => true
  | some m => if jsTrimNonempty m then modelOptionAvailable opts m else true

/-- What the cartotrade filter page offers during `applyFilters`:
whether the xpath locator built from the requested make matches a
checkbox, and the texts of the `#vehicleRangeId` model options. -/
structure FilterEnv where
  makeCheckboxAvailable : Bool
  modelOptions : List String
deriving Repr

/-- cartotrade `applyFilters` (part_005 lines 75-256) reduced to its
fallible control flow.  STEP 1 (lines 88-98): when a make is given,
`checkbox.check()` runs on a locator built from the make value with no
try/catch around it; the call auto-waits and rejects with a timeout
error when no element matches, so an unavailable make propagates a
rejection out of `applyFilters`.  The slider steps only log on a
missing slider, and the model step (lines 191-240) handles an
unavailable model gracefully through the `_cartotradeSearchExecuted`
flag.  The result is the rejection, or the flag the page carries into
`extractCars`. -/
def applyFilters (params : SearchParams) (env : FilterEnv) :
    Except String Bool :=
  if jsStrGiven params.make && !env.makeCheckboxAvailable then
    .error "Timeout waiting for a checkbox matching the requested make"
  else
    .ok (searchExecuted params.model env.modelOptions)

/-- `applyFilters` resolved rather than rejecting. -/
def filtersResolve (params : SearchParams) (env : FilterEnv) : Bool :=
  match applyFilters params env with
  | .ok _ => true
  | .error _ => false

/-- The `_cartotradeSearchExecuted` flag that `extractCars` will read
(its value is irrelevant when `applyFilters` rejected, since extraction
never runs on that job). -/
def runFlag (params : SearchParams) (env : FilterEnv) : Bool :=
  match applyFilters params env with
  | .ok b => b
  | .error _ => false

/-- Outcome of fetching one further results page in the cartotrade
pagination loop: the next-page navigation either succeeds and the new
page holds `cars`, or it fails (a caught click/timeout error, part_005
lines 542-630, which sets `hasMorePages = false`). -/
inductive PageFetch (α : Type)
  | ok (cars : List α)
  | fail
deriving Repr, DecidableEq

/-- The `while (hasMorePages)` accumulation (part_005 lines 280-640):
each successfully fetched page's cards are appended; an exhausted
pagination (no Next button) or a failed advance stops the loop. -/
def paginate : List (PageFetch α) → List α
  | [] => []
  | .fail :: _ => []
  | .ok cs :: rest => cs ++ paginate rest

/-- cartotrade `extractCars` (part_005 lines 265-641): return `[]`
gracefully when `_cartotradeSearchExecuted === false`, otherwise the
records of the first results page followed by the pagination loop. -/
def extractCars (executed : Bool) (firstPage : List α)
    (rest : List (PageFetch α)) : List α :=
  if executed = false then [] else firstPage ++ paginate rest

theorem paginate_partial (okPages : List (List α)) (rest : List (PageFetch α)) :
    paginate ((okPages.map PageFetch.ok) ++ PageFetch.fail :: rest) =
      okPages.flatten := by
  induction okPages with
  | nil => rfl
  | cons p ps ih => simp [paginate, ih]

end Carto

namespace Disposal

/-- Outcome of one iteration of the disposalnetwork page loop: a page's
API response with its `vehicles` array, a skipped iteration (missing or
malformed response → `continue`), or a thrown error (→ `break`,
part_005 lines 1476-1481). -/
inductive DPage (α : Type)
  | ok (vehicles : List α)
  | skip
  | fail
deriving Repr, DecidableEq

/-- The `for (let pageNum = 1; pageNum <= maxPages; pageNum++)` loop
with `maxPages = 3` (part_005 lines 1390-1482): an error breaks, a
malformed response skips, a page with fewer than 25 vehicles ends the
loop after being added. -/
def paginate : List (DPage α) → Nat → List α
  | _, 0 => []
  | [], _ => []
  | .fail :: _, _ + 1 => []
  | .skip :: rest, n + 1 => paginate rest n
  | .ok vs :: rest, n + 1 => vs ++ (if vs.length < 25 then [] else paginate rest n)

/-- The raw vehicle shape read by the transform (part_005 lines
1492-1519). -/
structure RawVehicle where
  vehicleId : Option String := none
  thumbnail : Option String := none
  make : Option String := none
  model : Option String := none
  derivative : Option String := none
  buyNowPrice : Option Int := none
  vehicleLocationPostCode : Option String := none
  regNo : Option String := none
  mileage : Option Int := none
deriving Repr, DecidableEq

structure CarRecord where
  url : String
  imageUrl : String
  title : String
  price : Int
  location : String
  registration : String
  mileage : Int
  source : String
  timestamp : String
deriving Repr, DecidableEq

/-- The per-vehicle transform of disposalnetwork `extractCars`
(part_005 lines 1492-1519); its per-item `try/catch` cannot reject on
plain field accesses with `||` defaults, so it is total. -/
def transformVehicle (ts : String) (v : RawVehicle) : CarRecord :=
  { url := "https://disposalnetwork.1link.co.uk/uk/tb/app/vehicle/"
      ++ jsOrStr v.vehicleId "unknown"
  , imageUrl := jsOrStr v.thumbnail ""
  , title := (jsOrStr v.make "Unknown" ++ " " ++ jsOrStr v.model "Unknown"
      ++ " " ++ jsOrStr v.derivative "").trim
  , price := v.buyNowPrice.getD 0
  , location := jsOrStr v.vehicleLocationPostCode ""
  , registration := jsOrStr v.regNo ""
  , mileage := v.mileage.getD 0
  , source := "DisposalNetwork"
  , timestamp := ts }

/-- The page flags consulted by disposalnetwork `extractCars`:
`undefined` is modelled as `none` (the strict `=== false` / `=== true`
checks distinguish it from a set flag). -/
structure Flags where
  makeApplied : Option Bool
  modelApplied : Option Bool
  noResults : Option Bool
deriving Repr, DecidableEq

/-- What the page offers during filtering: whether a label matching the
requested make exists, how many labels match the requested model, and
whether the mileage step finds no usable radio option. -/
structure FilterEnv where
  makeAvailable : Bool
  modelMatchCount : Nat
  mileageUnsatisfiable : Bool
deriving Repr

/-- STEP 4.5 of `applyFilters` (part_005 lines 835-1004): when a
`maxMileage` is requested and no suitable enabled option covers it, the
`_disposalnetworkNoResults` flag is set and the function returns. -/
def withMileage (params : SearchParams) (env : FilterEnv) (f : Flags) : Flags :=
  if params.maxMileage.isSome && env.mileageUnsatisfiable then
    { f with noResults := some true }
  else f

/-- The flag outcome of `applyFilters` (part_005 lines 718-1331):
an unavailable requested make sets `_disposalnetworkMakeApplied = false`
and returns early; with the make step passed, an unavailable requested
model sets `_disposalnetworkModelApplied = false` and returns early;
otherwise both flags are `true` and the mileage step may set
`_disposalnetworkNoResults`. -/
def applyFiltersFlags (params : SearchParams) (env : FilterEnv) : Flags :=
  if jsStrGiven params.make then
    if env.makeAvailable then
      if jsStrGiven params.model then
        if env.modelMatchCount > 0 then
          withMileage params env ⟨some true, some true, none⟩
        else ⟨some true, some false, none⟩
      else withMileage params env ⟨some true, some true, none⟩
    else ⟨some false, none, none⟩
  else withMileage params env ⟨some true, some true, none⟩

/-- disposalnetwork `extractCars` (part_005 lines 1340-1527): the three
flag checks return `[]` gracefully; otherwise the pages are paginated
(up to 3) and each vehicle transformed. -/
def extractCars (flags : Flags) (pages : List (DPage RawVehicle))
    (ts : String) : List CarRecord :=
  if flags.noResults = some true then []
  else if flags.makeApplied = some false then []
  else if flags.modelApplied = some false then []
  else (paginate pages 3).map (transformVehicle ts)

end Disposal

/-- Claim C4 (amended): when a required filter value has no selectable
option and the driver detects it — cartotrade's model dropdown, or
disposalnetwork's make or model labels — the driver signals it through
a page flag instead of throwing, `extractCars` returns `[]` gracefully,
and the job completes as a normal empty result: the per-site result is
`some []` (zero records, no error).  The exception the code makes:
cartotrade's make step does not detect an unavailable make — the
uncaught `checkbox.check()` rejection makes `applyFilters` reject and
that job is classified as a failure (`none`). -/
theorem C4_unsatisfiable_filter_amended
    (creds : Option Backend.LoginCredentials)
    (hcred : Backend.credentialsOk creds = true) (hp : Bool)
    (cparams : SearchParams) (cenv : Carto.FilterEnv)
    (hcar : Carto.applyFilters cparams cenv = .ok false)
    (firstPage : List Nat) (rest : List (Carto.PageFetch Nat))
    (mparams : SearchParams) (menv : Carto.FilterEnv)
    (hmk : jsStrGiven mparams.make = true)
    (hmenv : menv.makeCheckboxAvailable = false)
    (exo : Except String (List Nat))
    (params : SearchParams) (ts : String)
    (pages : List (Disposal.DPage Disposal.RawVehicle))
    (envMake envModel : Disposal.FilterEnv)
    (hmake : jsStrGiven params.make = true) (hmodel : jsStrGiven params.model = true)
    (henv1 : envMake.makeAvailable = false)
    (henv2a : envModel.makeAvailable = true) (henv2b : envModel.modelMatchCount = 0) :
    (Carto.extractCars (Carto.runFlag cparams cenv) firstPage rest = []
      ∧ (Backend.processSite Backend.cartotradeCfg creds
          ⟨true, true, Carto.filtersResolve cparams cenv,
            .ok (Carto.extractCars (Carto.runFlag cparams cenv) firstPage rest)⟩
          hp).1 = some [])
    ∧ (Carto.filtersResolve mparams menv = false
      ∧ (Backend.processSite Backend.cartotradeCfg creds
          ⟨true, true, Carto.filtersResolve mparams menv, exo⟩ hp).1 = none)
    ∧ ((Disposal.applyFiltersFlags params envMake).makeApplied = some false
      ∧ (Backend.processSite Backend.disposalnetworkCfg creds
          ⟨true, true, true, .ok (Disposal.extractCars
            (Disposal.applyFiltersFlags params envMake) pages ts)⟩ hp).1 = some [])
    ∧ ((Disposal.applyFiltersFlags params envModel).modelApplied = some false
      ∧ (Backend.processSite Backend.disposalnetworkCfg creds
          ⟨true, true, true, .ok (Disposal.extractCars
            (Disposal.applyFiltersFlags params envModel) pages ts)⟩ hp).1 = some []) := by
  have hfr : Carto.filtersResolve cparams cenv = true := by
    unfold Carto.filtersResolve
    rw [hcar]
  have hfl : Carto.runFlag cparams cenv = false := by
    unfold Carto.runFlag
    rw [hcar]
  have hex : Carto.extractCars (Carto.runFlag cparams cenv) firstPage rest = [] := by
    rw [hfl]
    rfl
  have hfr2 : Carto.filtersResolve mparams menv = false := by
    unfold Carto.filtersResolve Carto.applyFilters
    simp [hmk, hmenv]
  have hflags1 : Disposal.applyFiltersFlags params envMake =
      ⟨some false, none, none⟩ := by
    unfold Disposal.applyFiltersFlags
    simp [hmake, henv1]
  have hflags2 : Disposal.applyFiltersFlags params envModel =
      ⟨some true, some false, none⟩ := by
    unfold Disposal.applyFiltersFlags
    simp [hmake, hmodel, henv2a, henv2b]
  have hd1 : Disposal.extractCars (Disposal.applyFiltersFlags params envMake)
      pages ts = [] := by
    rw [hflags1]
    rfl
  have hd2 : Disposal.extractCars (Disposal.applyFiltersFlags params envModel)
      pages ts = [] := by
    rw [hflags2]
    rfl
  refine ⟨⟨hex, ?_⟩, ⟨hfr2, ?_⟩, ⟨by rw [hflags1], ?_⟩, ⟨by rw [hflags2], ?_⟩⟩
  · rw [hex, hfr]
    exact Backend.processSite_ok_records _ _ _ _ hcred rfl
  · rw [hfr2]
    exact Backend.processSite_filters_reject _ _ _ _ hcred rfl rfl
  · rw [hd1]
    exact Backend.processSite_ok_records _ _ _ _ hcred rfl
  · rw [hd2]
    exact Backend.processSite_ok_records _ _ _ _ hcred rfl

def bmwGolfParams : SearchParams := { make := some "VW", model := some "GOLF" }

def lamboParams : SearchParams := { make := some "LAMBORGHINI" }

def cartoModelEnv : Carto.FilterEnv := ⟨true, ["3 SERIES", "A4"]⟩

def cartoNoMakeEnv : Carto.FilterEnv := ⟨false, ["3 SERIES", "A4"]⟩

def envNoMake : Disposal.FilterEnv := ⟨false, 0, false⟩

def envNoModel : Disposal.FilterEnv := ⟨true, 0, false⟩

/-- Claim C4 counterexample: on cartotrade a specified make with no
selectable checkbox makes `applyFilters` reject — part_005 lines 88-98
run `checkbox.check()` with no try/catch, and the call rejects when the
locator matches nothing — so the job is caught at the `processSite`
boundary and classified as a failure (`none`, the JS null), not a
normal empty result: "never classified as a failure" is false. -/
theorem C4_counterexample :
    Carto.filtersResolve lamboParams cartoNoMakeEnv = false
    ∧ (Backend.processSite Backend.cartotradeCfg (some ⟨"u", "p"⟩)
        ⟨true, true, Carto.filtersResolve lamboParams cartoNoMakeEnv,
          .ok ([] : List Nat)⟩ true).1 = none := by
  refine ⟨by decide, by decide⟩

theorem C4_witness :
    (Backend.credentialsOk (some ⟨"u", "p"⟩) = true
      ∧ Carto.applyFilters bmwGolfParams cartoModelEnv = .ok false
      ∧ jsStrGiven lamboParams.make = true
      ∧ cartoNoMakeEnv.makeCheckboxAvailable = false
      ∧ jsStrGiven bmwGolfParams.make = true
      ∧ jsStrGiven bmwGolfParams.model = true
      ∧ envNoMake.makeAvailable = false
      ∧ envNoModel.makeAvailable = true
      ∧ envNoModel.modelMatchCount = 0)
    ∧ Carto.extractCars (Carto.runFlag bmwGolfParams cartoModelEnv)
        ([] : List Nat) [] = [] := by
  refine ⟨⟨by decide, by rfl, by decide, by decide, by decide, by decide,
    by decide, by decide, by decide⟩, ?_⟩
  exact (C4_unsatisfiable_filter_amended (some ⟨"u", "p"⟩) (by decide) true
    bmwGolfParams cartoModelEnv (by rfl) [] [] lamboParams cartoNoMakeEnv
    (by decide) (by decide) (.ok []) bmwGolfParams "ts" [] envNoMake envNoModel
    (by decide) (by decide) (by decide) (by decide) (by decide)).1.1

/-- Claim C5: a page failure mid-pagination terminates the loop and the
job returns exactly the records accumulated from the pages that
succeeded, with no error set: the per-site result is `some` of the
accumulated records.  Cartotrade: any number of successfully advanced
pages followed by a failing advance; disposalnetwork: a failure on page
2 or page 3 of its 3-page loop (the loop only continues past a page
that had at least 25 vehicles). -/
theorem C5_partial_pagination_preserved
    (creds : Option Backend.LoginCredentials)
    (hcred : Backend.credentialsOk creds = true) (hp : Bool)
    (firstPage : List Nat) (okPages : List (List Nat))
    (rest : List (Carto.PageFetch Nat))
    (vs1 vs2 : List Disposal.RawVehicle)
    (more : List (Disposal.DPage Disposal.RawVehicle)) (ts : String)
    (h1 : 25 ≤ vs1.length) (h2 : 25 ≤ vs2.length) :
    (Carto.extractCars true firstPage
        ((okPages.map Carto.PageFetch.ok) ++ Carto.PageFetch.fail :: rest) =
        firstPage ++ okPages.flatten
      ∧ (Backend.processSite Backend.cartotradeCfg creds
          ⟨true, true, true, .ok (Carto.extractCars true firstPage
            ((okPages.map Carto.PageFetch.ok) ++ Carto.PageFetch.fail :: rest))⟩
          hp).1 = some (firstPage ++ okPages.flatten))
    ∧ (Disposal.extractCars ⟨some true, some true, none⟩
          (Disposal.DPage.ok vs1 :: Disposal.DPage.fail :: more) ts =
        vs1.map (Disposal.transformVehicle ts)
      ∧ (Backend.processSite Backend.disposalnetworkCfg creds
          ⟨true, true, true, .ok (Disposal.extractCars ⟨some true, some true, none⟩
            (Disposal.DPage.ok vs1 :: Disposal.DPage.fail :: more) ts)⟩ hp).1 =
          some (vs1.map (Disposal.transformVehicle ts)))
    ∧ Disposal.extractCars ⟨some true, some true, none⟩
        (Disposal.DPage.ok vs1 :: Disposal.DPage.ok vs2 :: Disposal.DPage.fail :: more)
        ts = (vs1 ++ vs2).map (Disposal.transformVehicle ts) := by
  have hcarto : Carto.extractCars true firstPage
      ((okPages.map Carto.PageFetch.ok) ++ Carto.PageFetch.fail :: rest) =
      firstPage ++ okPages.flatten := by
    unfold Carto.extractCars
    simp [Carto.paginate_partial]
  have hpag1 : Disposal.paginate
      (Disposal.DPage.ok vs1 :: Disposal.DPage.fail :: more) 3 = vs1 := by
    show vs1 ++ (if vs1.length < 25 then []
      else Disposal.paginate (Disposal.DPage.fail :: more) 2) = vs1
    rw [if_neg (by omega)]
    show vs1 ++ ([] : List Disposal.RawVehicle) = vs1
    simp
  have hpag2 : Disposal.paginate
      (Disposal.DPage.ok vs1 :: Disposal.DPage.ok vs2 ::
        Disposal.DPage.fail :: more) 3 = vs1 ++ vs2 := by
    show vs1 ++ (if vs1.length < 25 then []
      else Disposal.paginate (Disposal.DPage.ok vs2 :: Disposal.DPage.fail :: more) 2) =
      vs1 ++ vs2
    rw [if_neg (by omega)]
    congr 1
    show vs2 ++ (if vs2.length < 25 then []
      else Disposal.paginate (Disposal.DPage.fail :: more) 1) = vs2
    rw [if_neg (by omega)]
    show vs2 ++ ([] : List Disposal.RawVehicle) = vs2
    simp
  have hd1 : Disposal.extractCars ⟨some true, some true, none⟩
      (Disposal.DPage.ok vs1 :: Disposal.DPage.fail :: more) ts =
      vs1.map (Disposal.transformVehicle ts) := by
    unfold Disposal.extractCars
    simp [hpag1]
  have hd2 : Disposal.extractCars ⟨some true, some true, none⟩
      (Disposal.DPage.ok vs1 :: Disposal.DPage.ok vs2 ::
        Disposal.DPage.fail :: more) ts =
      (vs1 ++ vs2).map (Disposal.transformVehicle ts) := by
    unfold Disposal.extractCars
    simp [hpag2]
  refine ⟨⟨hcarto, ?_⟩, ⟨hd1, ?_⟩, hd2⟩
  · rw [hcarto]
    exact Backend.processSite_ok_records _ _ _ _ hcred rfl
  · rw [hd1]
    exact Backend.processSite_ok_records _ _ _ _ hcred rfl

def rawSample : Disposal.RawVehicle := {}

theorem C5_witness :
    (Backend.credentialsOk (some ⟨"u", "p"⟩) = true
      ∧ 25 ≤ (List.replicate 25 rawSample).length)
    ∧ Carto.extractCars true [9]
        (([[1, 2], [3]].map Carto.PageFetch.ok) ++ Carto.PageFetch.fail :: []) =
      [9] ++ [[1, 2], [3]].flatten := by
  refine ⟨⟨by decide, by simp⟩, ?_⟩
  exact (C5_partial_pagination_preserved (some ⟨"u", "p"⟩) (by decide) true
    [9] [[1, 2], [3]] [] (List.replicate 25 rawSample)
    (List.replicate 25 rawSample) [] "ts" (by simp) (by simp)).1.1

namespace Frontend

/-- A JS value sitting in the `price` field of a record: a string, a
number, or `undefined`. -/
inductive JsVal
  | str (s : String)
  | num (n : Int)
  | undef
deriving DecidableEq, Repr

/-- JS truthiness: the empty string, the number 0 and `undefined` are
falsy. -/
def JsVal.truthy : JsVal → Bool
  | .str s => !s.isEmpty
  | .num n => n != 0
  | .undef => false

/-- The fields of the backend record that `convertApiVehicleToVehicle`
reads (vehicleApi.ts lines 151-191); a missing field is `none`
(JS `undefined`). -/
structure ApiVehicle where
  id : Option String := none
  title : Option String := none
  primaryVehicleDescription : Option String := none
  make : Option String := none
  model : Option String := none
  price : JsVal := .undef
  imageUrl : Option String := none
  image : Option String := none
  location : Option String := none
  localSaleLocation : Option String := none
  dealer : Option String := none
  registration : Option String := none
  reg : Option String := none
  vrm : Option String := none
  source : Option String := none
  website : Option String := none
  url : Option String := none
  mileage : Option Int := none
deriving Repr, DecidableEq

/-- The frontend `Vehicle` shape produced by the converter. -/
structure Vehicle where
  id : String
  title : String
  price : JsVal
  imageUrl : String
  location : String
  registration : String
  source : String
  url : String
  timestamp : String
  mileage : Option Int
deriving Repr, DecidableEq

/-- A possibly-undefined string used as an operand of JS `+`:
`undefined` is coerced to the string `"undefined"`. -/
def jsPlusStr (o : Option String) : String :=
  match o with
  | none => "undefined"
  | some s => s

/-- `s || d` where `s` is already a string. -/
def jsOrStrVal (s d : String) : String :=
  if s.isEmpty then d else s

/-- The `title` expression of the converter (vehicleApi.ts lines
159-163): `title || primaryVehicleDescription || make + " " + model ||
"Unknown Vehicle"`.  JS `+` binds tighter than `||`, so the third
alternative is the concatenation `make + " " + model` with `undefined`
operands coerced to the string `"undefined"`. -/
def convertTitle (v : ApiVehicle) : String :=
  jsOrStr v.title (jsOrStr v.primaryVehicleDescription
    (jsOrStrVal (jsPlusStr v.make ++ " " ++ jsPlusStr v.model) "Unknown Vehicle"))

/-- The `price` expression (lines 164-165):
`(price as string) || (price as number) || "0"`, which is
`price || "0"`. -/
def convertPrice (p : JsVal) : JsVal :=
  if p.truthy then p else .str "0"

/-- `convertApiVehicleToVehicle` (vehicleApi.ts lines 151-191);
`generatedId` stands for the `Date.now()`-plus-random fallback id and
`ts` for `new Date().toISOString()`. -/
def convertApiVehicleToVehicle (generatedId ts : String) (v : ApiVehicle) : Vehicle :=
  { id := jsOrStr v.id generatedId
  , title := convertTitle v
  , price := convertPrice v.price
  , imageUrl := jsOrStr v.imageUrl (jsOrStr v.image "https://via.placeholder.com/400")
  , location := jsOrStr v.location (jsOrStr v.localSaleLocation (jsOrStr v.dealer "Unknown"))
  , registration := jsOrStr v.registration (jsOrStr v.reg (jsOrStr v.vrm "Unknown"))
  , source := jsOrStr v.source (jsOrStr v.website "Unknown Source")
  , url := jsOrStr v.url "#"
  , timestamp := ts
  , mileage := match v.mileage with
      | none => none
      | some n => if n = 0 then none else some n }

end Frontend

/-- Claim C6, evaluated at the failing input: for a raw record with
none of title, primaryVehicleDescription, make or model set, the
normalized title is `"undefined undefined"` — JS `+` binds tighter than
`||` and the concatenation of two `undefined`s is a truthy string, so
the `"Unknown Vehicle"` fallback written in the source is unreachable.
The priority of `title` over `primaryVehicleDescription` does hold. -/
theorem C6_title_fallback_failing_eval :
    (Frontend.convertApiVehicleToVehicle "gen" "ts" {}).title = "undefined undefined"
    ∧ "undefined undefined" ≠ "Unknown Vehicle"
    ∧ (Frontend.convertApiVehicleToVehicle "gen" "ts"
        { title := some "T5 Kombi", primaryVehicleDescription := some "VW T5" }).title
      = "T5 Kombi" := by
  refine ⟨by decide, by decide, by decide⟩

/-- Claim C7 counterexample: the number 0 is JS-falsy, so
`price || "0"` replaces a present price of `0` by the string `"0"` —
the source value is not preserved as given. -/
theorem C7_counterexample :
    (Frontend.convertApiVehicleToVehicle "gen" "ts"
      { price := Frontend.JsVal.num 0 }).price = Frontend.JsVal.str "0"
    ∧ Frontend.JsVal.str "0" ≠ Frontend.JsVal.num 0 := by
  refine ⟨by decide, by decide⟩

/-- Claim C7 (amended): a present price that is JS-truthy — a non-empty
string or a non-zero number — is preserved unchanged, string or number
alike; a falsy price (the number 0, the empty string, or an absent
field) is replaced by the string `"0"`. -/
theorem C7_price_preserved_when_truthy (generatedId ts : String)
    (v : Frontend.ApiVehicle) (h : v.price.truthy = true) :
    (Frontend.convertApiVehicleToVehicle generatedId ts v).price = v.price
    ∧ (Frontend.convertApiVehicleToVehicle generatedId ts
        { v with price := Frontend.JsVal.num 0 }).price = Frontend.JsVal.str "0" := by
  constructor
  · show Frontend.convertPrice v.price = v.price
    unfold Frontend.convertPrice
    rw [h]
    rfl
  · show Frontend.convertPrice (Frontend.JsVal.num 0) = Frontend.JsVal.str "0"
    rfl

theorem C7_witness :
    Frontend.JsVal.truthy (Frontend.JsVal.str "£12,000") = true
    ∧ (Frontend.convertApiVehicleToVehicle "gen" "ts"
        { price := Frontend.JsVal.str "£12,000" }).price =
      Frontend.JsVal.str "£12,000" :=
  ⟨by decide, (C7_price_preserved_when_truthy "gen" "ts"
    { price := Frontend.JsVal.str "£12,000" } (by decide)).1⟩
